import Mathlib

/-!
Verification development for the `vvecon-setup` repository.

The repository's single program, `src/scripts/setup.js`, is an interactive
setup wizard: `main()` runs a hardcoded sequence of eleven step blocks
(header, action, motivational print, `step++`, `progressBar.update(step - 1)`).
Actions are direct filesystem operations or external commands run through
`runCommand` (execa); a non-zero exit or spawn failure makes `runCommand`
call `process.exit(1)`.

We embed the script shallowly:

* Filesystem state relevant to the script is a record: whether
  `composer.lock` exists, the content of `.env` (if present), the content of
  `.env.example`, and whether `public/storage` exists.
* External command outcomes are an oracle `Oracle : Nat → Bool` giving the
  success of the i-th `runCommand` invocation (counting from 0).  `execa`
  with `stdio: 'inherit'` has no other observable result in the script.
* The run produces a trace of events (step headers, prints, command
  invocations, the `.env` copy, the `public/storage` deletion, progress-bar
  updates) plus an exit cause.  `process.exit(1)` inside `runCommand` and
  inside `checkEnvironment` is modelled with `Except`: an error short-circuits
  the rest of `main`, exactly as `process.exit` does.
* Purely cosmetic output (typed-text animation, colors, spinners, beeps,
  random motivational messages, the `oh-my-logo` banner whose failure is
  swallowed by a `catch {}`) is not modelled: it writes to the terminal only
  and its content never influences control flow.
-/

set_option maxHeartbeats 1000000

namespace Vvecon

/-- An external command invocation: executable name and argument list,
as passed to `execa(command, args)` in `runCommand` (setup.js line 66). -/
structure Cmd where
  name : String
  args : List String
deriving DecidableEq, Repr

/-- Observable events of a run of `main()`:
step headers (`printStepHeader(step, total, title)`), console prints,
external command invocations, the `.env.example → .env` copy
(`fs.copyFileSync`, line 188), the removal of `public/storage`
(`deleteDirectoryContents` + `deleteDirectory`, lines 221-222), and
progress-bar updates (`progressBar.update(step - 1)`). -/
inductive Event where
  | header (k total : Nat) (title : String)
  | print (msg : String)
  | run (c : Cmd)
  | copyEnv
  | deleteStorage
  | progress (v : Nat)
deriving DecidableEq, Repr

/-- How a run of the script ends: normal completion of `main()` (process exit
status 0), `process.exit(1)` from `runCommand` after a failed command
(line 73), or `process.exit(1)` from `checkEnvironment` on detecting
`APP_ENV=production` (line 141). -/
inductive ExitCause where
  | success
  | cmdFail (c : Cmd)
  | prodAbort
deriving DecidableEq, Repr

/-- Process exit status for each exit cause: 0 on success, 1 for both
`process.exit(1)` sites. -/
def exitCode : ExitCause → Nat
  | .success => 0
  | .cmdFail _ => 1
  | .prodAbort => 1

/-- Mutable state of a run: the filesystem bits the script reads or writes,
the `step` counter variable of `main()`, the number of `runCommand`
invocations performed so far (the index into the success oracle), and the
trace of events so far. -/
structure St where
  composerLockExists : Bool
  envContent : Option String
  publicStorageExists : Bool
  step : Nat
  cmdIdx : Nat
  trace : List Event
deriving DecidableEq, Repr

/-- Initial conditions of a run: the working directory's relevant contents.
`envContent = none` means no `.env` file exists; `envExampleContent` is the
content of the `.env.example` template. -/
structure Config where
  composerLockExists : Bool
  envContent : Option String
  envExampleContent : String
  publicStorageExists : Bool
deriving DecidableEq, Repr

/-- The five choices of the step-7 inquirer prompt (setup.js lines 243-249);
`none` is the `No` choice (the default). -/
inductive MigrationOption where
  | none
  | migrate
  | migrateFresh
  | seed
  | seedFresh
deriving DecidableEq, Repr

/-- Answers the user gives to the three interactive prompts. -/
structure Choices where
  migrationOption : MigrationOption
  buildAssets : Bool
  runProd : Bool
deriving DecidableEq, Repr

/-- Success oracle for external commands: `orc i` tells whether the i-th
`runCommand` invocation of the run exits with code 0. -/
abbrev Oracle := Nat → Bool

/-- Computation type of the run: an error carries the state at the moment of
`process.exit(1)` together with the exit cause. -/
abbrev M := Except (St × ExitCause) St

/-- State reached by a computation, whether it completed or exited early. -/
def stOf : M → St
  | .ok s => s
  | .error p => p.1

/-- Append one event to the trace. -/
def emit (e : Event) (s : St) : St :=
  { s with trace := s.trace ++ [e] }

/-- Total number of steps shown by the wizard (`totalSteps = 11`, line 157). -/
def totalSteps : Nat := 11

/-- Model of `printStepHeader(step, totalSteps, title)` (lines 80-84). -/
def header (title : String) (s : St) : St :=
  emit (.header s.step totalSteps title) s

/-- Model of the step-end bookkeeping `step++; progressBar.update(step - 1)`
that closes every step block of `main()`. -/
def advanceStep (s : St) : St :=
  let s' := { s with step := s.step + 1 }
  emit (.progress (s'.step - 1)) s'

/-- Model of `runCommand(command, args, ...)` (lines 63-75): the command is
spawned (one oracle index is consumed), and on failure the process exits
with status 1 — nothing after the failed command ever runs. -/
def runCommand (orc : Oracle) (c : Cmd) (s : St) : M :=
  let s' := { emit (.run c) s with cmdIdx := s.cmdIdx + 1 }
  if orc s.cmdIdx then .ok s' else .error (s', .cmdFail c)

/-- `composer install --no-scripts --no-interaction --no-ansi` (line 179). -/
def composerInstallNoScripts : Cmd :=
  ⟨"composer", ["install", "--no-scripts", "--no-interaction", "--no-ansi"]⟩

/-- `composer install --no-interaction --no-ansi` (line 212). -/
def composerInstall : Cmd :=
  ⟨"composer", ["install", "--no-interaction", "--no-ansi"]⟩

/-- `php artisan key:generate` (lines 191 and 196). -/
def keyGenerate : Cmd := ⟨"php", ["artisan", "key:generate"]⟩

/-- `php artisan storage:link` (line 231). -/
def storageLink : Cmd := ⟨"php", ["artisan", "storage:link"]⟩

/-- `php artisan migrate` (lines 255 and 261). -/
def artisanMigrate : Cmd := ⟨"php", ["artisan", "migrate"]⟩

/-- `php artisan migrate:fresh` (line 258). -/
def artisanMigrateFresh : Cmd := ⟨"php", ["artisan", "migrate:fresh"]⟩

/-- `php artisan db:seed` (line 262). -/
def artisanDbSeed : Cmd := ⟨"php", ["artisan", "db:seed"]⟩

/-- `php artisan migrate:fresh --seed` (line 265). -/
def artisanMigrateFreshSeed : Cmd := ⟨"php", ["artisan", "migrate:fresh", "--seed"]⟩

/-- `php artisan icon:cache` (line 276). -/
def iconCache : Cmd := ⟨"php", ["artisan", "icon:cache"]⟩

/-- `npm run build` (line 295). -/
def npmBuild : Cmd := ⟨"npm", ["run", "build"]⟩

/-- The five production-optimization commands run in order when the user
answers yes at step 10 (lines 316-322). -/
def prodCommands : List Cmd :=
  [⟨"php", ["artisan", "config:cache"]⟩,
   ⟨"php", ["artisan", "route:cache"]⟩,
   ⟨"php", ["artisan", "view:cache"]⟩,
   ⟨"php", ["artisan", "optimize"]⟩,
   ⟨"php", ["artisan", "filament:cache-components"]⟩]

/-- In a JavaScript regex, `.` matches any character except a line
terminator (`\n`, `\r`, U+2028, U+2029). -/
def jsDotChar (c : Char) : Bool :=
  c != '\n' && c != '\r' && c != Char.ofNat 0x2028 && c != Char.ofNat 0x2029

/-- Does the character list start with `APP_KEY=` followed by one character
that `.` matches? -/
def appKeyMatchAt : List Char → Bool
  | 'A' :: 'P' :: 'P' :: '_' :: 'K' :: 'E' :: 'Y' :: '=' :: c :: _ => jsDotChar c
  | _ => false

/-- Unanchored search for the pattern anywhere in the character list. -/
def hasAppKeySub : List Char → Bool
  | [] => false
  | c :: rest => appKeyMatchAt (c :: rest) || hasAppKeySub rest

/-- Model of `/APP_KEY=.+/.test(envContent)` (line 194): the regex is
unanchored, so it succeeds whenever `APP_KEY=` followed by at least one
non-line-terminator character occurs anywhere in the file. -/
def testAppKey (content : String) : Bool :=
  hasAppKeySub content.toList

/-- Split a character list at newlines (the line structure a dotenv file is
parsed by). -/
def splitLines : List Char → List (List Char)
  | [] => [[]]
  | c :: rest =>
    if c = '\n' then [] :: splitLines rest
    else
      match splitLines rest with
      | [] => [[c]]
      | l :: ls => (c :: l) :: ls

/-- The value of a line of the form `APP_ENV=...`, if the line has that
form. -/
def appEnvOfLine : List Char → Option (List Char)
  | 'A' :: 'P' :: 'P' :: '_' :: 'E' :: 'N' :: 'V' :: '=' :: rest => some rest
  | _ => none

/-- Modelled from the `dotenv` library used by `checkEnvironment`
(line 130): the value of `APP_ENV` is taken from the first line of the file
of the form `APP_ENV=...`.  (Full dotenv syntax — quoting, `export`
prefixes, comments — is not needed by any claim: only whether the parsed
value equals `"production"` matters.) -/
def parseAppEnv (content : String) : Option String :=
  (splitLines content.toList).findSome? fun l =>
    (appEnvOfLine l).map fun cs => String.mk cs

/-- Model of `process.env.APP_ENV || 'local'` (line 133), assuming a clean
parent environment (no `APP_ENV` inherited): the `.env` value if the file
exists and defines a non-empty one, else `'local'`.  A defined-but-empty
value is falsy in JavaScript, so `||` also yields `'local'` for it. -/
def getAppEnv : Option String → String
  | none => "local"
  | some content =>
    match parseAppEnv content with
    | some v => if v = "" then "local" else v
    | none => "local"

/-- Model of `checkEnvironment()` (lines 126-145): load `.env` if present,
read `APP_ENV` (default `'local'`), and `process.exit(1)` if it equals
`'production'`. -/
def checkEnvironment (s : St) : M :=
  let env := getAppEnv s.envContent
  if env = "production" then
    .error (emit (.print "🚨 PRODUCTION ENVIRONMENT DETECTED! 🚨") s, .prodAbort)
  else
    .ok (emit (.print ("✓ Environment check passed (" ++ env ++ ")")) s)

/-- Model of the body of step 3 (lines 186-200): if `.env` is absent, copy
`.env.example` to `.env` and run `php artisan key:generate`; otherwise run
`key:generate` only when the content fails the `/APP_KEY=.+/` test. -/
def envSetup (cfg : Config) (orc : Oracle) (s : St) : M :=
  match s.envContent with
  | none =>
    let s := { s with envContent := some cfg.envExampleContent }
    let s := emit .copyEnv s
    let s := emit (.print "✓ .env created") s
    runCommand orc keyGenerate s
  | some content =>
    if testAppKey content then
      .ok (emit (.print "✓ .env exists and APP_KEY is valid") s)
    else
      runCommand orc keyGenerate (emit (.print "🔑 APP_KEY is empty or invalid, generating...") s)

/-- The `.env` content in force when `checkEnvironment` runs at line 203:
the pre-existing `.env` if there was one, else the copied template. -/
def envAfter (cfg : Config) (s : St) : Option String :=
  match s.envContent with
  | none => some cfg.envExampleContent
  | some c => some c

/-- Step body of step 3: environment-file setup followed by the environment
check (lines 185-204). -/
def envCheckSub (cfg : Config) (orc : Oracle) (s : St) : M :=
  envSetup cfg orc s >>= checkEnvironment

/-- One step block of `main()`: print the header, run the step body, then
`step++; progressBar.update(step - 1)`.  An early `process.exit(1)` in the
body skips the bookkeeping, exactly as in the script. -/
def withStep (sub : St → M) (title : String) (s : St) : M :=
  match sub (header title s) with
  | .error p => .error p
  | .ok s1 => .ok (advanceStep s1)

/-- Step 1 (lines 168-175): print header; if `composer.lock` exists print
`✓ composer.lock deleted`, else `⏩ No composer.lock found`.  The script
performs no filesystem operation in this step — there is no `fs.unlinkSync`
call — so `composerLockExists` is left unchanged. -/
def step1 (s : St) : St :=
  let s := header "Cleaning composer.lock" s
  let s :=
    if s.composerLockExists then emit (.print "✓ composer.lock deleted") s
    else emit (.print "⏩ No composer.lock found") s
  advanceStep s

/-- Step 2 (lines 177-182): `composer install --no-scripts ...`. -/
def step2 (orc : Oracle) : St → M :=
  withStep (runCommand orc composerInstallNoScripts)
    "Installing Composer dependencies (no-scripts)"

/-- Step 3 (lines 184-208): `.env` setup plus environment check. -/
def step3 (cfg : Config) (orc : Oracle) : St → M :=
  withStep (envCheckSub cfg orc) "Setting up .env"

/-- Step 4 (lines 210-215): `composer install` with scripts. -/
def step4 (orc : Oracle) : St → M :=
  withStep (runCommand orc composerInstall) "Re-running Composer install (with scripts)"

/-- Step 5 (lines 217-227): delete `public/storage` recursively if it
exists (`deleteDirectoryContents` then `deleteDirectory`; both are no-ops
behind the `fs.existsSync` guard when the directory is absent). -/
def step5 (s : St) : St :=
  let s := header "Cleaning public/storage" s
  let s :=
    if s.publicStorageExists then
      emit (.print "✓ Removed public/storage")
        (emit .deleteStorage { s with publicStorageExists := false })
    else emit (.print "⏩ public/storage not found") s
  advanceStep s

/-- Step 6 (lines 229-234): `php artisan storage:link`. -/
def step6 (orc : Oracle) : St → M :=
  withStep (runCommand orc storageLink) "Creating storage symlink"

/-- Step-7 body (lines 253-269): dispatch on the chosen migration option;
the `No` choice only prints the skip message. -/
def migrationSub (ch : Choices) (orc : Oracle) (s : St) : M :=
  match ch.migrationOption with
  | .migrate => runCommand orc artisanMigrate s
  | .migrateFresh => runCommand orc artisanMigrateFresh s
  | .seed => runCommand orc artisanMigrate s >>= runCommand orc artisanDbSeed
  | .seedFresh => runCommand orc artisanMigrateFreshSeed s
  | .none => .ok (emit (.print "⏩ Skipping database migration") s)

/-- Step 7 (lines 236-272): database migration choice step. -/
def step7 (ch : Choices) (orc : Oracle) : St → M :=
  withStep (migrationSub ch orc) "Database migration"

/-- Step 8 (lines 274-279): `php artisan icon:cache`. -/
def step8 (orc : Oracle) : St → M :=
  withStep (runCommand orc iconCache) "Caching icons"

/-- Step-9 body (lines 295-296): build frontend assets or print the skip
message. -/
def buildSub (ch : Choices) (orc : Oracle) (s : St) : M :=
  if ch.buildAssets then runCommand orc npmBuild s
  else .ok (emit (.print "⏩ Skipping frontend build") s)

/-- Step 9 (lines 281-299): frontend asset build choice step. -/
def step9 (ch : Choices) (orc : Oracle) : St → M :=
  withStep (buildSub ch orc) "Frontend asset build"

/-- The loop over `prodCommands` (lines 323-325). -/
def runProdCommands (orc : Oracle) : List Cmd → St → M
  | [], s => .ok s
  | c :: cs, s => runCommand orc c s >>= runProdCommands orc cs

/-- Step-10 body (lines 315-326): run the five optimization commands or
print the skip message. -/
def prodSub (ch : Choices) (orc : Oracle) (s : St) : M :=
  if ch.runProd then runProdCommands orc prodCommands s
  else .ok (emit (.print "⏩ Skipping production optimizations") s)

/-- Step 10 (lines 301-329): production optimizations choice step. -/
def step10 (ch : Choices) (orc : Oracle) : St → M :=
  withStep (prodSub ch orc) "Production optimizations"

/-- Initial run state built from the working directory contents. -/
def initSt (cfg : Config) : St :=
  { composerLockExists := cfg.composerLockExists
    envContent := cfg.envContent
    publicStorageExists := cfg.publicStorageExists
    step := 1
    cmdIdx := 0
    trace := [] }

/-- Model of `main()` (lines 150-347): the ten step blocks in order.  The
block labelled `Step 11: Complete` (lines 331-346) stops the progress bar
and prints the completion banner; it updates no state that we track, so the
run ends after step 10's bookkeeping. -/
def mainM (cfg : Config) (ch : Choices) (orc : Oracle) : M := do
  let s := step1 (initSt cfg)
  let s ← step2 orc s
  let s ← step3 cfg orc s
  let s ← step4 orc s
  let s := step5 s
  let s ← step6 orc s
  let s ← step7 ch orc s
  let s ← step8 orc s
  let s ← step9 ch orc s
  let s ← step10 ch orc s
  pure s

/-- A whole run: the event trace and the exit cause. -/
def runMain (cfg : Config) (ch : Choices) (orc : Oracle) : List Event × ExitCause :=
  match mainM cfg ch orc with
  | .ok s => (s.trace, .success)
  | .error p => (p.1.trace, p.2)

/-- The progress values reported by the trace, in order. -/
def progressValues (evs : List Event) : List Nat :=
  evs.filterMap fun e => match e with | .progress v => some v | _ => none

/-- The external commands invoked by the trace, in order. -/
def runsOf (evs : List Event) : List Cmd :=
  evs.filterMap fun e => match e with | .run c => some c | _ => none

/-- The step numbers of the headers printed by the trace, in order. -/
def headersOf (evs : List Event) : List Nat :=
  evs.filterMap fun e => match e with | .header k _ _ => some k | _ => none

/-- How many times the trace invokes a given command. -/
def countCmd (c : Cmd) (evs : List Event) : Nat :=
  (runsOf evs).count c

/-- The oracle under which every external command succeeds. -/
def allOk : Oracle := fun _ => true

@[simp] lemma progressValues_append (l l' : List Event) :
    progressValues (l ++ l') = progressValues l ++ progressValues l' := by
  simp [progressValues]

@[simp] lemma runsOf_append (l l' : List Event) :
    runsOf (l ++ l') = runsOf l ++ runsOf l' := by
  simp [runsOf]

@[simp] lemma headersOf_append (l l' : List Event) :
    headersOf (l ++ l') = headersOf l ++ headersOf l' := by
  simp [headersOf]

/-- A configuration whose `.env` names a production environment. -/
def prodCfg : Config := ⟨false, some "APP_ENV=production", "", false⟩

/-- A configuration with a valid `.env` (non-empty `APP_KEY`, local env). -/
def lockedCfg : Config := ⟨false, some "APP_KEY=x", "", false⟩

/-- The prompt answers that skip all three choice steps. -/
def skipChoices : Choices := ⟨.none, false, false⟩

/-- The `.env` content in force at the line-203 environment check, given
the initial working directory: the pre-existing `.env` if there was one,
else the copied `.env.example` template. -/
def effectiveEnv (cfg : Config) : Option String :=
  match cfg.envContent with
  | none => some cfg.envExampleContent
  | some c => some c

/-- Behaviour of a step body (the part of a step between its header and
its `step++; progressBar.update` bookkeeping): either it completes,
appending the commands `ρ` to the trace and consuming one oracle index per
command, all successful; or a command fails, the trace ends at that
command, and the whole process exits at once. -/
def SubOk (orc : Oracle) (s : St) (m : M) : Prop :=
  (∃ s' ρ, m = .ok s' ∧
      s'.step = s.step ∧ s'.cmdIdx = s.cmdIdx + ρ.length ∧
      (∀ i, i < s'.cmdIdx → i < s.cmdIdx ∨ orc i = true) ∧
      progressValues s'.trace = progressValues s.trace ∧
      headersOf s'.trace = headersOf s.trace ∧
      runsOf s'.trace = runsOf s.trace ++ ρ)
  ∨ (∃ s' c ρ, m = .error (s', .cmdFail c) ∧
      s'.trace.getLast? = some (Event.run c) ∧
      s'.cmdIdx = s.cmdIdx + ρ.length + 1 ∧
      orc (s'.cmdIdx - 1) = false ∧
      (∀ i, i < s'.cmdIdx - 1 → i < s.cmdIdx ∨ orc i = true) ∧
      progressValues s'.trace = progressValues s.trace ∧
      headersOf s'.trace = headersOf s.trace ∧
      runsOf s'.trace = runsOf s.trace ++ ρ ++ [c])

/-- Behaviour of a completed step block relative to its entry state: the
step counter advances by one, exactly one progress value (the step's
number) and one header are reported, and the commands run are appended
while consuming matching oracle indices, all successful. -/
def StepOkP (orc : Oracle) (s s' : St) : Prop :=
  s'.step = s.step + 1 ∧
  (∃ ρ, s'.cmdIdx = s.cmdIdx + ρ.length ∧ runsOf s'.trace = runsOf s.trace ++ ρ) ∧
  (∀ i, i < s'.cmdIdx → i < s.cmdIdx ∨ orc i = true) ∧
  progressValues s'.trace = progressValues s.trace ++ [s.step] ∧
  headersOf s'.trace = headersOf s.trace ++ [s.step]

/-- Behaviour of a step block that exits through a failed command: the
exit cause names the command, the trace ends at its invocation, its oracle
index reports failure while all earlier consumed indices succeeded, the
step's header was printed but no progress value was reported. -/
def StepFailP (orc : Oracle) (s : St) (p : St × ExitCause) : Prop :=
  ∃ c, p.2 = .cmdFail c ∧
    p.1.trace.getLast? = some (Event.run c) ∧
    (∃ ρ, p.1.cmdIdx = s.cmdIdx + ρ.length + 1 ∧
      runsOf p.1.trace = runsOf s.trace ++ ρ ++ [c]) ∧
    orc (p.1.cmdIdx - 1) = false ∧
    (∀ i, i < p.1.cmdIdx - 1 → i < s.cmdIdx ∨ orc i = true) ∧
    progressValues p.1.trace = progressValues s.trace ∧
    headersOf p.1.trace = headersOf s.trace ++ [s.step]

/-- Claim C9 (confirmed): the `Cleaning composer.lock` step reports
`✓ composer.lock deleted` when `composer.lock` exists, yet performs no
deletion: line 171 of setup.js prints the message but contains no
`fs.unlinkSync` call, so after the step `composer.lock` still exists and
every tracked filesystem field is unchanged. -/
theorem composer_lock_never_deleted (s : St) (h : s.composerLockExists = true) :
    (step1 s).composerLockExists = true ∧
    Event.print "✓ composer.lock deleted" ∈ (step1 s).trace ∧
    (step1 s).envContent = s.envContent ∧
    (step1 s).publicStorageExists = s.publicStorageExists := by
  unfold step1 header advanceStep emit
  simp [h]

/-- Witness for `composer_lock_never_deleted` at a concrete state. -/
theorem composer_lock_never_deleted_witness :
    (initSt ⟨true, none, "", false⟩).composerLockExists = true ∧
    ((step1 (initSt ⟨true, none, "", false⟩)).composerLockExists = true ∧
     Event.print "✓ composer.lock deleted" ∈ (step1 (initSt ⟨true, none, "", false⟩)).trace ∧
     (step1 (initSt ⟨true, none, "", false⟩)).envContent = (initSt ⟨true, none, "", false⟩).envContent ∧
     (step1 (initSt ⟨true, none, "", false⟩)).publicStorageExists
       = (initSt ⟨true, none, "", false⟩).publicStorageExists) :=
  ⟨rfl, composer_lock_never_deleted _ rfl⟩

/-- Claim C5 (confirmed): the environment-file step performs no copy when
`.env` already exists (no copy event is produced and the `.env` content is
unchanged), and copies the `.env.example` template to the `.env` path when
it is absent. -/
theorem env_step_copy_iff_absent (cfg : Config) (orc : Oracle) (s : St)
    (hno : Event.copyEnv ∉ s.trace) :
    (s.envContent = none →
      Event.copyEnv ∈ (stOf (envSetup cfg orc s)).trace ∧
      (stOf (envSetup cfg orc s)).envContent = some cfg.envExampleContent) ∧
    (∀ c, s.envContent = some c →
      Event.copyEnv ∉ (stOf (envSetup cfg orc s)).trace ∧
      (stOf (envSetup cfg orc s)).envContent = some c) := by
  constructor
  · intro hnone
    unfold envSetup runCommand stOf emit
    rw [hnone]
    cases horc : orc s.cmdIdx <;> simp [horc]
  · intro c hsome
    unfold envSetup runCommand stOf emit
    rw [hsome]
    cases htest : testAppKey c
    · cases horc : orc s.cmdIdx <;> simp [htest, horc, hno]
    · simp [htest, hno]

/-- Witness for `env_step_copy_iff_absent` at a concrete state. -/
theorem env_step_copy_iff_absent_witness :
    Event.copyEnv ∉ (initSt ⟨false, none, "T", false⟩).trace ∧
    (((initSt ⟨false, none, "T", false⟩).envContent = none →
      Event.copyEnv ∈ (stOf (envSetup ⟨false, none, "T", false⟩ allOk (initSt ⟨false, none, "T", false⟩))).trace ∧
      (stOf (envSetup ⟨false, none, "T", false⟩ allOk (initSt ⟨false, none, "T", false⟩))).envContent = some "T") ∧
    (∀ c, (initSt ⟨false, none, "T", false⟩).envContent = some c →
      Event.copyEnv ∉ (stOf (envSetup ⟨false, none, "T", false⟩ allOk (initSt ⟨false, none, "T", false⟩))).trace ∧
      (stOf (envSetup ⟨false, none, "T", false⟩ allOk (initSt ⟨false, none, "T", false⟩))).envContent = some c)) :=
  ⟨by decide, env_step_copy_iff_absent _ allOk _ (by decide)⟩

/-- Claim C10 (confirmed): when `.env` exists, `php artisan key:generate`
is invoked exactly when the content fails the unanchored
`/APP_KEY=.+/` test, where `.` matches any non-line-terminator character;
in particular a line merely containing the substring — such as
`#APP_KEY=old` or `MY_APP_KEY=x` — passes the test and suppresses key
generation. -/
theorem app_key_unanchored_check (cfg : Config) (orc : Oracle) (s : St) (content : String)
    (h : s.envContent = some content) :
    runsOf (stOf (envSetup cfg orc s)).trace
      = runsOf s.trace ++ (if testAppKey content then [] else [keyGenerate]) ∧
    testAppKey "#APP_KEY=old" = true ∧
    testAppKey "MY_APP_KEY=x" = true := by
  refine ⟨?_, by decide, by decide⟩
  unfold envSetup runCommand stOf emit
  rw [h]
  cases htest : testAppKey content
  · cases horc : orc s.cmdIdx <;> simp [htest, horc, runsOf]
  · simp [htest, runsOf]

/-- Witness for `app_key_unanchored_check` at a concrete state. -/
theorem app_key_unanchored_check_witness :
    (initSt lockedCfg).envContent = some "APP_KEY=x" ∧
    (runsOf (stOf (envSetup lockedCfg allOk (initSt lockedCfg))).trace
      = runsOf (initSt lockedCfg).trace ++ (if testAppKey "APP_KEY=x" then [] else [keyGenerate]) ∧
     testAppKey "#APP_KEY=old" = true ∧
     testAppKey "MY_APP_KEY=x" = true) :=
  ⟨by decide, app_key_unanchored_check lockedCfg allOk _ "APP_KEY=x" (by decide)⟩

/-- Claim C6 (confirmed): each of the three choice steps — database
migration, frontend build, production optimizations — reports success
(the step completes and its progress update is emitted) and invokes zero
external commands when the user selects the skip/no option. -/
theorem choice_skip_no_commands (ch : Choices) (orc : Oracle) (s : St) :
    (ch.migrationOption = .none →
      ∃ s', step7 ch orc s = .ok s' ∧
        runsOf s'.trace = runsOf s.trace ∧
        progressValues s'.trace = progressValues s.trace ++ [s.step]) ∧
    (ch.buildAssets = false →
      ∃ s', step9 ch orc s = .ok s' ∧
        runsOf s'.trace = runsOf s.trace ∧
        progressValues s'.trace = progressValues s.trace ++ [s.step]) ∧
    (ch.runProd = false →
      ∃ s', step10 ch orc s = .ok s' ∧
        runsOf s'.trace = runsOf s.trace ∧
        progressValues s'.trace = progressValues s.trace ++ [s.step]) := by
  refine ⟨fun h => ?_, fun h => ?_, fun h => ?_⟩
  · unfold step7 withStep migrationSub header advanceStep emit
    rw [h]
    simp [runsOf, progressValues]
  · unfold step9 withStep buildSub header advanceStep emit
    rw [h]
    simp [runsOf, progressValues]
  · unfold step10 withStep prodSub header advanceStep emit
    rw [h]
    simp [runsOf, progressValues]

/-- Witness for `choice_skip_no_commands` at the all-skip answers. -/
theorem choice_skip_no_commands_witness :
    (skipChoices.migrationOption = .none →
      ∃ s', step7 skipChoices allOk (initSt lockedCfg) = .ok s' ∧
        runsOf s'.trace = runsOf (initSt lockedCfg).trace ∧
        progressValues s'.trace = progressValues (initSt lockedCfg).trace ++ [(initSt lockedCfg).step]) ∧
    (skipChoices.buildAssets = false →
      ∃ s', step9 skipChoices allOk (initSt lockedCfg) = .ok s' ∧
        runsOf s'.trace = runsOf (initSt lockedCfg).trace ∧
        progressValues s'.trace = progressValues (initSt lockedCfg).trace ++ [(initSt lockedCfg).step]) ∧
    (skipChoices.runProd = false →
      ∃ s', step10 skipChoices allOk (initSt lockedCfg) = .ok s' ∧
        runsOf s'.trace = runsOf (initSt lockedCfg).trace ∧
        progressValues s'.trace = progressValues (initSt lockedCfg).trace ++ [(initSt lockedCfg).step]) :=
  choice_skip_no_commands skipChoices allOk (initSt lockedCfg)

/-- Claim C8 (confirmed): a direct filesystem step whose target is absent
is a no-op success: with no `composer.lock`, step 1 prints the skip
message and completes (its progress update is emitted, no command runs);
with no `public/storage`, step 5 deletes nothing, prints the skip message
and completes.  Both steps are total functions of the state — no error can
be raised — so the run always proceeds to the following step. -/
theorem absent_targets_noop_success (s : St) :
    (s.composerLockExists = false →
      Event.print "⏩ No composer.lock found" ∈ (step1 s).trace ∧
      progressValues (step1 s).trace = progressValues s.trace ++ [s.step] ∧
      runsOf (step1 s).trace = runsOf s.trace) ∧
    (s.publicStorageExists = false →
      (Event.deleteStorage ∈ (step5 s).trace ↔ Event.deleteStorage ∈ s.trace) ∧
      Event.print "⏩ public/storage not found" ∈ (step5 s).trace ∧
      progressValues (step5 s).trace = progressValues s.trace ++ [s.step] ∧
      runsOf (step5 s).trace = runsOf s.trace) := by
  constructor
  · intro h
    unfold step1 header advanceStep emit
    simp [h, progressValues, runsOf]
  · intro h
    unfold step5 header advanceStep emit
    simp [h, progressValues, runsOf]

/-- Claim C4 (confirmed): starting from a working directory containing only
the `.env.example` template (no `.env`, no `composer.lock`, no
`public/storage`), with every choice step answered skip/no and every
invoked command succeeding, the run copies the template to `.env`, invokes
the key-generation command exactly once and the storage-link command
exactly once, exits with status 0, and invokes no migration, seeding,
frontend-build, or production-optimization command.  (The fixed sequence
also runs the two composer installs and `icon:cache`, which the scenario
does not mention; the template must not set `APP_ENV=production`, or the
run would abort at the environment check.) -/
theorem skip_scenario_commands (ex : String) (h : getAppEnv (some ex) ≠ "production") :
    (runMain ⟨false, none, ex, false⟩ skipChoices allOk).2 = .success ∧
    exitCode (runMain ⟨false, none, ex, false⟩ skipChoices allOk).2 = 0 ∧
    Event.copyEnv ∈ (runMain ⟨false, none, ex, false⟩ skipChoices allOk).1 ∧
    countCmd keyGenerate (runMain ⟨false, none, ex, false⟩ skipChoices allOk).1 = 1 ∧
    countCmd storageLink (runMain ⟨false, none, ex, false⟩ skipChoices allOk).1 = 1 ∧
    countCmd artisanMigrate (runMain ⟨false, none, ex, false⟩ skipChoices allOk).1 = 0 ∧
    countCmd artisanMigrateFresh (runMain ⟨false, none, ex, false⟩ skipChoices allOk).1 = 0 ∧
    countCmd artisanDbSeed (runMain ⟨false, none, ex, false⟩ skipChoices allOk).1 = 0 ∧
    countCmd artisanMigrateFreshSeed (runMain ⟨false, none, ex, false⟩ skipChoices allOk).1 = 0 ∧
    countCmd npmBuild (runMain ⟨false, none, ex, false⟩ skipChoices allOk).1 = 0 ∧
    (∀ c ∈ prodCommands, countCmd c (runMain ⟨false, none, ex, false⟩ skipChoices allOk).1 = 0) := by
  unfold runMain mainM step1 step2 step3 step4 step5 step6 step7 step8 step9 step10
    withStep envCheckSub envSetup checkEnvironment migrationSub buildSub prodSub
    runCommand header advanceStep emit initSt
  simp [allOk, skipChoices, h, bind, Except.bind, pure, Except.pure, exitCode, countCmd, runsOf,
    prodCommands, keyGenerate, storageLink, artisanMigrate, artisanMigrateFresh, artisanDbSeed,
    artisanMigrateFreshSeed, npmBuild, composerInstall, composerInstallNoScripts, iconCache,
    List.count_cons, List.count_nil]

/-- Witness for `skip_scenario_commands` with an empty template. -/
theorem skip_scenario_commands_witness :
    getAppEnv (some "") ≠ "production" ∧
    ((runMain ⟨false, none, "", false⟩ skipChoices allOk).2 = .success ∧
     exitCode (runMain ⟨false, none, "", false⟩ skipChoices allOk).2 = 0 ∧
     Event.copyEnv ∈ (runMain ⟨false, none, "", false⟩ skipChoices allOk).1 ∧
     countCmd keyGenerate (runMain ⟨false, none, "", false⟩ skipChoices allOk).1 = 1 ∧
     countCmd storageLink (runMain ⟨false, none, "", false⟩ skipChoices allOk).1 = 1 ∧
     countCmd artisanMigrate (runMain ⟨false, none, "", false⟩ skipChoices allOk).1 = 0 ∧
     countCmd artisanMigrateFresh (runMain ⟨false, none, "", false⟩ skipChoices allOk).1 = 0 ∧
     countCmd artisanDbSeed (runMain ⟨false, none, "", false⟩ skipChoices allOk).1 = 0 ∧
     countCmd artisanMigrateFreshSeed (runMain ⟨false, none, "", false⟩ skipChoices allOk).1 = 0 ∧
     countCmd npmBuild (runMain ⟨false, none, "", false⟩ skipChoices allOk).1 = 0 ∧
     (∀ c ∈ prodCommands, countCmd c (runMain ⟨false, none, "", false⟩ skipChoices allOk).1 = 0)) :=
  ⟨by decide, skip_scenario_commands "" (by decide)⟩

/-- Claim C1 (counterexample): with `.env` containing `APP_ENV=production`
and every command succeeding, the run does abort with exit status 1 — but
only at the environment check placed after the step-3 body: by that time
the dependency-installation command (`composer install`) and the
key-generation command have already been invoked, so the abort does not
precede every mutating step. -/
theorem prod_check_not_before_mutations_cex :
    (runMain prodCfg skipChoices allOk).2 = .prodAbort ∧
    exitCode (runMain prodCfg skipChoices allOk).2 = 1 ∧
    composerInstallNoScripts ∈ runsOf (runMain prodCfg skipChoices allOk).1 ∧
    keyGenerate ∈ runsOf (runMain prodCfg skipChoices allOk).1 := by
  decide

/-- Claim C3 (counterexample): a run in which every step succeeds (the
choice steps all answered skip, every command exiting 0) ends with exit
status 0, but the last progress value the script reports is 10, not the
total step count 11 — `progressBar.update` is called for steps 1 through
10 only, and the `Step 11: Complete` block stops the bar without a final
update. -/
theorem final_progress_cex :
    (runMain lockedCfg skipChoices allOk).2 = .success ∧
    (progressValues (runMain lockedCfg skipChoices allOk).1).getLast? = some 10 ∧
    totalSteps = 11 ∧ (10 : Nat) ≠ 11 := by
  decide

/-- Witness for `absent_targets_noop_success` at a concrete state. -/
theorem absent_targets_noop_success_witness :
    ((initSt lockedCfg).composerLockExists = false →
      Event.print "⏩ No composer.lock found" ∈ (step1 (initSt lockedCfg)).trace ∧
      progressValues (step1 (initSt lockedCfg)).trace
        = progressValues (initSt lockedCfg).trace ++ [(initSt lockedCfg).step] ∧
      runsOf (step1 (initSt lockedCfg)).trace = runsOf (initSt lockedCfg).trace) ∧
    ((initSt lockedCfg).publicStorageExists = false →
      (Event.deleteStorage ∈ (step5 (initSt lockedCfg)).trace ↔
        Event.deleteStorage ∈ (initSt lockedCfg).trace) ∧
      Event.print "⏩ public/storage not found" ∈ (step5 (initSt lockedCfg)).trace ∧
      progressValues (step5 (initSt lockedCfg)).trace
        = progressValues (initSt lockedCfg).trace ++ [(initSt lockedCfg).step] ∧
      runsOf (step5 (initSt lockedCfg)).trace = runsOf (initSt lockedCfg).trace) :=
  absent_targets_noop_success (initSt lockedCfg)

lemma ok_bind (a : St) (f : St → M) : (Except.ok a : M) >>= f = f a := rfl

lemma err_bind (e : St × ExitCause) (f : St → M) :
    (Except.error e : M) >>= f = Except.error e := rfl

lemma header_spec (t : String) (s : St) :
    (header t s).step = s.step ∧ (header t s).cmdIdx = s.cmdIdx ∧
    progressValues (header t s).trace = progressValues s.trace ∧
    headersOf (header t s).trace = headersOf s.trace ++ [s.step] ∧
    runsOf (header t s).trace = runsOf s.trace ∧
    (Event.deleteStorage ∈ (header t s).trace ↔ Event.deleteStorage ∈ s.trace) ∧
    (header t s).envContent = s.envContent := by
  unfold header emit
  simp [progressValues, headersOf, runsOf]

lemma advance_spec (s : St) :
    (advanceStep s).step = s.step + 1 ∧ (advanceStep s).cmdIdx = s.cmdIdx ∧
    progressValues (advanceStep s).trace = progressValues s.trace ++ [s.step] ∧
    headersOf (advanceStep s).trace = headersOf s.trace ∧
    runsOf (advanceStep s).trace = runsOf s.trace ∧
    (Event.deleteStorage ∈ (advanceStep s).trace ↔ Event.deleteStorage ∈ s.trace) ∧
    (advanceStep s).envContent = s.envContent := by
  unfold advanceStep emit
  simp [progressValues, headersOf, runsOf]

lemma subOk_ok (orc : Oracle) (s : St) : SubOk orc s (.ok s) := by
  left
  exact ⟨s, [], rfl, rfl, by simp, fun i hi => .inl hi, rfl, rfl, by simp⟩

lemma subOk_print (orc : Oracle) (s : St) (msg : String) :
    SubOk orc s (.ok (emit (.print msg) s)) := by
  left
  refine ⟨emit (.print msg) s, [], rfl, rfl, by simp [emit], fun i hi => ?_, ?_, ?_, ?_⟩
  · exact .inl (by simpa [emit] using hi)
  · simp [emit, progressValues]
  · simp [emit, headersOf]
  · simp [emit, runsOf]

lemma subOk_runCommand (orc : Oracle) (c : Cmd) (s : St) :
    SubOk orc s (runCommand orc c s) := by
  unfold runCommand emit
  cases horc : orc s.cmdIdx
  · simp only [horc, Bool.false_eq_true, if_false]
    right
    refine ⟨_, c, [], rfl, ?_, ?_, ?_, fun i hi => ?_, ?_, ?_, ?_⟩
    · simp
    · simp
    · simpa using horc
    · simp at hi
      exact .inl hi
    · simp [progressValues]
    · simp [headersOf]
    · simp [runsOf]
  · simp only [horc, if_true]
    left
    refine ⟨_, [c], rfl, rfl, ?_, fun i hi => ?_, ?_, ?_, ?_⟩
    · simp
    · simp at hi
      rcases Nat.lt_succ_iff_lt_or_eq.mp hi with h | h
      · exact .inl h
      · exact .inr (h ▸ horc)
    · simp [progressValues]
    · simp [headersOf]
    · simp [runsOf]

lemma subOk_bind {orc : Oracle} {s : St} {m : M} {k : St → M}
    (hm : SubOk orc s m) (hk : ∀ s1, m = .ok s1 → SubOk orc s1 (k s1)) :
    SubOk orc s (m >>= k) := by
  rcases hm with ⟨s1, ρ, heq, hstep, hidx, hsucc, hprog, hhdr, hruns⟩ |
    ⟨s1, c, ρ, heq, hlast, hidx, horc, hsucc, hprog, hhdr, hruns⟩
  · subst heq
    rw [ok_bind]
    rcases hk s1 rfl with ⟨s2, ρ', heq', hstep', hidx', hsucc', hprog', hhdr', hruns'⟩ |
      ⟨s2, c', ρ', heq', hlast', hidx', horc', hsucc', hprog', hhdr', hruns'⟩
    · left
      refine ⟨s2, ρ ++ ρ', heq', hstep'.trans hstep, ?_, fun i hi => ?_,
        hprog'.trans hprog, hhdr'.trans hhdr, ?_⟩
      · rw [hidx', hidx]; simp [Nat.add_assoc]
      · rcases hsucc' i hi with h | h
        · exact hsucc i (by omega)
        · exact .inr h
      · rw [hruns', hruns, List.append_assoc]
    · right
      refine ⟨s2, c', ρ ++ ρ', heq', hlast', ?_, horc', fun i hi => ?_,
        hprog'.trans hprog, hhdr'.trans hhdr, ?_⟩
      · rw [hidx', hidx]; simp [Nat.add_assoc]
      · rcases hsucc' i hi with h | h
        · rcases hsucc i (by omega) with h' | h'
          · exact .inl h'
          · exact .inr h'
        · exact .inr h
      · simp [hruns', hruns, List.append_assoc]
  · subst heq
    rw [err_bind]
    right
    exact ⟨s1, c, ρ, rfl, hlast, hidx, horc, hsucc, hprog, hhdr, hruns⟩

lemma subOk_runProdCommands (orc : Oracle) (cs : List Cmd) (s : St) :
    SubOk orc s (runProdCommands orc cs s) := by
  induction cs generalizing s with
  | nil => exact subOk_ok orc s
  | cons c cs ih =>
    unfold runProdCommands
    exact subOk_bind (subOk_runCommand orc c s) (fun s1 _ => ih s1)

lemma subOk_migrationSub (ch : Choices) (orc : Oracle) (s : St) :
    SubOk orc s (migrationSub ch orc s) := by
  unfold migrationSub
  cases ch.migrationOption
  · exact subOk_print orc s _
  · exact subOk_runCommand orc _ s
  · exact subOk_runCommand orc _ s
  · exact subOk_bind (subOk_runCommand orc _ s) (fun s1 _ => subOk_runCommand orc _ s1)
  · exact subOk_runCommand orc _ s

lemma subOk_buildSub (ch : Choices) (orc : Oracle) (s : St) :
    SubOk orc s (buildSub ch orc s) := by
  unfold buildSub
  cases h : ch.buildAssets
  · simp only [h, Bool.false_eq_true, if_false]
    exact subOk_print orc s _
  · simp only [h, if_true]
    exact subOk_runCommand orc _ s

lemma subOk_prodSub (ch : Choices) (orc : Oracle) (s : St) :
    SubOk orc s (prodSub ch orc s) := by
  unfold prodSub
  cases h : ch.runProd
  · simp only [h, Bool.false_eq_true, if_false]
    exact subOk_print orc s _
  · simp only [h, if_true]
    exact subOk_runProdCommands orc prodCommands s

lemma withStep_spec (orc : Oracle) (sub : St → M) (title : String) (s : St)
    (h : SubOk orc (header title s) (sub (header title s))) :
    (∃ s', withStep sub title s = .ok s' ∧ StepOkP orc s s')
    ∨ (∃ p, withStep sub title s = .error p ∧ StepFailP orc s p) := by
  obtain ⟨hhs, hhi, hhp, hhh, hhr, hhd, hhe⟩ := header_spec title s
  rcases h with ⟨s1, ρ, heq, hstep, hidx, hsucc, hprog, hhdr, hruns⟩ |
    ⟨s1, c, ρ, heq, hlast, hidx, horc, hsucc, hprog, hhdr, hruns⟩
  · left
    obtain ⟨has, hai, hap, hah, har, had, hae⟩ := advance_spec s1
    refine ⟨advanceStep s1, by unfold withStep; rw [heq], ?_, ⟨ρ, ?_, ?_⟩,
      fun i hi => ?_, ?_, ?_⟩
    · rw [has, hstep, hhs]
    · rw [hai, hidx, hhi]
    · rw [har, hruns, hhr]
    · rw [hai, hidx, hhi] at hi
      rcases hsucc i (by omega) with h' | h'
      · exact .inl (by omega)
      · exact .inr h'
    · rw [hap, hprog, hhp, hstep, hhs]
    · rw [hah, hhdr, hhh]
  · right
    refine ⟨(s1, .cmdFail c), by unfold withStep; rw [heq], c, rfl, hlast,
      ⟨ρ, ?_, ?_⟩, horc, fun i hi => ?_, ?_, ?_⟩
    · rw [hidx, hhi]
    · rw [hruns, hhr]
    · rcases hsucc i hi with h' | h'
      · exact .inl (by omega)
      · exact .inr h'
    · rw [hprog, hhp]
    · rw [hhdr, hhh]

lemma cmdStep_spec (orc : Oracle) (c : Cmd) (title : String) (s : St) :
    (orc s.cmdIdx = true ∧ ∃ s', withStep (runCommand orc c) title s = .ok s' ∧
        s'.step = s.step + 1 ∧ s'.cmdIdx = s.cmdIdx + 1 ∧
        progressValues s'.trace = progressValues s.trace ++ [s.step] ∧
        headersOf s'.trace = headersOf s.trace ++ [s.step] ∧
        runsOf s'.trace = runsOf s.trace ++ [c] ∧
        (Event.deleteStorage ∈ s'.trace ↔ Event.deleteStorage ∈ s.trace) ∧
        s'.envContent = s.envContent)
    ∨ (orc s.cmdIdx = false ∧
        ∃ s', withStep (runCommand orc c) title s = .error (s', .cmdFail c) ∧
        s'.cmdIdx = s.cmdIdx + 1 ∧
        s'.trace.getLast? = some (Event.run c) ∧
        progressValues s'.trace = progressValues s.trace ∧
        headersOf s'.trace = headersOf s.trace ++ [s.step] ∧
        runsOf s'.trace = runsOf s.trace ++ [c]) := by
  unfold withStep runCommand header advanceStep emit
  cases horc : orc s.cmdIdx
  · simp only [horc, Bool.false_eq_true, if_false]
    right
    refine ⟨trivial, _, rfl, ?_, ?_, ?_, ?_, ?_⟩
    · simp
    · simp [List.getLast?_concat]
    · simp [progressValues]
    · simp [headersOf]
    · simp [runsOf]
  · simp only [horc, if_true]
    left
    refine ⟨trivial, _, rfl, ?_, ?_, ?_, ?_, ?_, ?_, ?_⟩
    · simp
    · simp
    · simp [progressValues]
    · simp [headersOf]
    · simp [runsOf]
    · simp
    · simp

lemma envSetup_spec (cfg : Config) (orc : Oracle) (s : St) :
    (∃ s' ρ, envSetup cfg orc s = .ok s' ∧ (ρ = [] ∨ ρ = [keyGenerate]) ∧
        s'.step = s.step ∧ s'.cmdIdx = s.cmdIdx + ρ.length ∧
        (∀ i, i < s'.cmdIdx → i < s.cmdIdx ∨ orc i = true) ∧
        progressValues s'.trace = progressValues s.trace ∧
        headersOf s'.trace = headersOf s.trace ∧
        runsOf s'.trace = runsOf s.trace ++ ρ ∧
        (Event.deleteStorage ∈ s'.trace ↔ Event.deleteStorage ∈ s.trace) ∧
        s'.envContent = envAfter cfg s)
    ∨ (orc s.cmdIdx = false ∧
        ∃ s', envSetup cfg orc s = .error (s', .cmdFail keyGenerate) ∧
        s'.cmdIdx = s.cmdIdx + 1 ∧
        s'.trace.getLast? = some (Event.run keyGenerate) ∧
        progressValues s'.trace = progressValues s.trace ∧
        headersOf s'.trace = headersOf s.trace ∧
        runsOf s'.trace = runsOf s.trace ++ [keyGenerate]) := by
  unfold envSetup runCommand emit envAfter
  cases henv : s.envContent
  · cases horc : orc s.cmdIdx
    · simp only [horc, Bool.false_eq_true, if_false]
      right
      refine ⟨trivial, _, rfl, ?_, ?_, ?_, ?_, ?_⟩
      · simp
      · simp [List.getLast?_concat]
      · simp [progressValues]
      · simp [headersOf]
      · simp [runsOf]
    · simp only [horc, if_true]
      left
      refine ⟨_, [keyGenerate], rfl, .inr rfl, rfl, ?_, fun i hi => ?_, ?_, ?_, ?_, ?_, ?_⟩
      · simp
      · simp at hi
        rcases Nat.lt_succ_iff_lt_or_eq.mp hi with h | h
        · exact .inl h
        · exact .inr (h ▸ horc)
      · simp [progressValues]
      · simp [headersOf]
      · simp [runsOf]
      · simp
      · simp
  · rename_i content
    cases htest : testAppKey content
    · cases horc : orc s.cmdIdx
      · simp only [htest, Bool.false_eq_true, if_false, horc]
        right
        refine ⟨trivial, _, rfl, ?_, ?_, ?_, ?_, ?_⟩
        · simp
        · simp [List.getLast?_concat]
        · simp [progressValues]
        · simp [headersOf]
        · simp [runsOf]
      · simp only [htest, Bool.false_eq_true, if_false, horc, if_true]
        left
        refine ⟨_, [keyGenerate], rfl, .inr rfl, rfl, ?_, fun i hi => ?_, ?_, ?_, ?_, ?_, ?_⟩
        · simp
        · simp at hi
          rcases Nat.lt_succ_iff_lt_or_eq.mp hi with h | h
          · exact .inl h
          · exact .inr (h ▸ horc)
        · simp [progressValues]
        · simp [headersOf]
        · simp [runsOf]
        · simp
        · simp [henv]
    · simp only [htest, if_true]
      left
      refine ⟨_, [], rfl, .inl rfl, rfl, ?_, fun i hi => .inl (by simpa using hi),
        ?_, ?_, ?_, ?_, ?_⟩
      · simp
      · simp [progressValues]
      · simp [headersOf]
      · simp [runsOf]
      · simp
      · simp [henv]

lemma checkEnvironment_spec (s : St) :
    (getAppEnv s.envContent ≠ "production" ∧ ∃ s', checkEnvironment s = .ok s' ∧
        s'.step = s.step ∧ s'.cmdIdx = s.cmdIdx ∧ s'.envContent = s.envContent ∧
        progressValues s'.trace = progressValues s.trace ∧
        headersOf s'.trace = headersOf s.trace ∧
        runsOf s'.trace = runsOf s.trace ∧
        (Event.deleteStorage ∈ s'.trace ↔ Event.deleteStorage ∈ s.trace))
    ∨ (getAppEnv s.envContent = "production" ∧
        ∃ s', checkEnvironment s = .error (s', .prodAbort) ∧
        progressValues s'.trace = progressValues s.trace ∧
        headersOf s'.trace = headersOf s.trace ∧
        runsOf s'.trace = runsOf s.trace ∧
        (Event.deleteStorage ∈ s'.trace ↔ Event.deleteStorage ∈ s.trace)) := by
  unfold checkEnvironment emit
  by_cases h : getAppEnv s.envContent = "production"
  · simp only [h, if_pos rfl]
    right
    refine ⟨trivial, _, rfl, ?_, ?_, ?_, ?_⟩
    · simp [progressValues]
    · simp [headersOf]
    · simp [runsOf]
    · simp
  · rw [if_neg h]
    left
    refine ⟨h, _, rfl, rfl, rfl, rfl, ?_, ?_, ?_, ?_⟩
    · simp [progressValues]
    · simp [headersOf]
    · simp [runsOf]
    · simp

lemma step1_spec (s : St) :
    (step1 s).step = s.step + 1 ∧ (step1 s).cmdIdx = s.cmdIdx ∧
    progressValues (step1 s).trace = progressValues s.trace ++ [s.step] ∧
    headersOf (step1 s).trace = headersOf s.trace ++ [s.step] ∧
    runsOf (step1 s).trace = runsOf s.trace ∧
    (Event.deleteStorage ∈ (step1 s).trace ↔ Event.deleteStorage ∈ s.trace) ∧
    (step1 s).envContent = s.envContent := by
  unfold step1 header advanceStep emit
  cases h : s.composerLockExists <;>
    simp [h, progressValues, headersOf, runsOf]

lemma step5_spec (s : St) :
    (step5 s).step = s.step + 1 ∧ (step5 s).cmdIdx = s.cmdIdx ∧
    progressValues (step5 s).trace = progressValues s.trace ++ [s.step] ∧
    headersOf (step5 s).trace = headersOf s.trace ++ [s.step] ∧
    runsOf (step5 s).trace = runsOf s.trace ∧
    (step5 s).envContent = s.envContent := by
  unfold step5 header advanceStep emit
  cases h : s.publicStorageExists <;>
    simp [h, progressValues, headersOf, runsOf]

lemma step3_spec (cfg : Config) (orc : Oracle) (s : St) :
    (∃ s', step3 cfg orc s = .ok s' ∧ StepOkP orc s s' ∧
        (∃ ρ, (ρ = [] ∨ ρ = [keyGenerate]) ∧ runsOf s'.trace = runsOf s.trace ++ ρ) ∧
        (Event.deleteStorage ∈ s'.trace ↔ Event.deleteStorage ∈ s.trace) ∧
        getAppEnv (envAfter cfg s) ≠ "production")
    ∨ (∃ p, step3 cfg orc s = .error p ∧ StepFailP orc s p)
    ∨ (∃ p, step3 cfg orc s = .error p ∧ p.2 = .prodAbort ∧
        progressValues p.1.trace = progressValues s.trace ∧
        headersOf p.1.trace = headersOf s.trace ++ [s.step] ∧
        (∃ ρ, (ρ = [] ∨ ρ = [keyGenerate]) ∧ runsOf p.1.trace = runsOf s.trace ++ ρ) ∧
        (Event.deleteStorage ∈ p.1.trace ↔ Event.deleteStorage ∈ s.trace) ∧
        getAppEnv (envAfter cfg s) = "production") := by
  obtain ⟨hhs, hhi, hhp, hhh, hhr, hhd, hhe⟩ := header_spec "Setting up .env" s
  have henvAfter : envAfter cfg (header "Setting up .env" s) = envAfter cfg s := by
    unfold envAfter
    rw [hhe]
  rcases envSetup_spec cfg orc (header "Setting up .env" s) with
    ⟨s1, ρ, heq, hρ, hstep, hidx, hsucc, hprog, hhdr, hruns, hdel, henv⟩ |
    ⟨horc, s1, heq, hidx, hlast, hprog, hhdr, hruns⟩
  · rcases checkEnvironment_spec s1 with
      ⟨hne, s2, heq2, hstep2, hidx2, henv2, hprog2, hhdr2, hruns2, hdel2⟩ |
      ⟨hpr, s2, heq2, hprog2, hhdr2, hruns2, hdel2⟩
    · left
      obtain ⟨has, hai, hap, hah, har, had, hae⟩ := advance_spec s2
      have hs3 : step3 cfg orc s = .ok (advanceStep s2) := by
        unfold step3 withStep envCheckSub
        rw [heq, ok_bind, heq2]
      refine ⟨advanceStep s2, hs3, ⟨?_, ⟨ρ, ?_, ?_⟩, fun i hi => ?_, ?_, ?_⟩,
        ⟨ρ, hρ, ?_⟩, ?_, ?_⟩
      · rw [has, hstep2, hstep, hhs]
      · rw [hai, hidx2, hidx, hhi]
      · rw [har, hruns2, hruns, hhr]
      · rw [hai, hidx2, hidx, hhi] at hi
        rcases hsucc i (by omega) with h' | h'
        · exact .inl (by omega)
        · exact .inr h'
      · rw [hap, hprog2, hprog, hhp, hstep2, hstep, hhs]
      · rw [hah, hhdr2, hhdr, hhh]
      · rw [har, hruns2, hruns, hhr]
      · exact had.trans (hdel2.trans (hdel.trans hhd))
      · rw [← henvAfter, ← henv]
        exact henv2 ▸ hne
    · right; right
      have hs3 : step3 cfg orc s = .error (s2, .prodAbort) := by
        unfold step3 withStep envCheckSub
        rw [heq, ok_bind, heq2]
      refine ⟨(s2, .prodAbort), hs3, rfl, ?_, ?_, ⟨ρ, hρ, ?_⟩, ?_, ?_⟩
      · exact hprog2.trans (hprog.trans hhp)
      · rw [hhdr2, hhdr, hhh]
      · rw [hruns2, hruns, hhr]
      · exact hdel2.trans (hdel.trans hhd)
      · rw [← henvAfter, ← henv]
        exact hpr
  · right; left
    have hs3 : step3 cfg orc s = .error (s1, .cmdFail keyGenerate) := by
      unfold step3 withStep envCheckSub
      rw [heq, err_bind]
    refine ⟨(s1, .cmdFail keyGenerate), hs3, keyGenerate, rfl, hlast,
      ⟨[], ?_, ?_⟩, ?_, fun i hi => ?_, ?_, ?_⟩
    · rw [hidx, hhi]; simp
    · rw [hruns, hhr]; simp
    · have : s1.cmdIdx - 1 = s.cmdIdx := by omega
      rw [this, ← hhi]
      exact horc
    · have hi' : i < s1.cmdIdx - 1 := hi
      have hi2 : i < s.cmdIdx := by omega
      exact .inl hi2
    · exact hprog.trans hhp
    · rw [hhdr, hhh]

lemma stepOk_propagate {orc : Oracle} {s s' : St} {k : Nat} {P L : List Nat}
    (h : StepOkP orc s s')
    (hstep : s.step = k) (hprog : progressValues s.trace = P)
    (hhdr : headersOf s.trace = L)
    (hlen : (runsOf s.trace).length = s.cmdIdx)
    (hsucc : ∀ i, i < s.cmdIdx → orc i = true) :
    s'.step = k + 1 ∧ progressValues s'.trace = P ++ [k] ∧
    headersOf s'.trace = L ++ [k] ∧
    (runsOf s'.trace).length = s'.cmdIdx ∧
    (∀ i, i < s'.cmdIdx → orc i = true) := by
  obtain ⟨h1, ⟨ρ, h2, h3⟩, h4, h5, h6⟩ := h
  refine ⟨by rw [h1, hstep], by rw [h5, hprog, hstep], by rw [h6, hhdr, hstep],
    ?_, fun i hi => ?_⟩
  · rw [h3, List.length_append, hlen, h2]
  · rcases h4 i hi with h' | h'
    · exact hsucc i h'
    · exact h'

lemma stepFail_conclude {orc : Oracle} {s : St} {p : St × ExitCause} {m : Nat}
    (h : StepFailP orc s p)
    (hlen : (runsOf s.trace).length = s.cmdIdx)
    (hsucc : ∀ i, i < s.cmdIdx → orc i = true)
    (hprog : progressValues s.trace = List.range' 1 m) (hm : m ≤ 10) :
    ∃ c, p = (p.1, .cmdFail c) ∧
      p.1.trace.getLast? = some (Event.run c) ∧
      (runsOf p.1.trace).length = p.1.cmdIdx ∧ 1 ≤ p.1.cmdIdx ∧
      orc (p.1.cmdIdx - 1) = false ∧
      (∀ i, i < p.1.cmdIdx - 1 → orc i = true) ∧
      (∃ m', m' ≤ 10 ∧ progressValues p.1.trace = List.range' 1 m') := by
  obtain ⟨c, hc, hlast, ⟨ρ, hidx, hruns⟩, horc, hsucc', hprog', hhdr'⟩ := h
  have hpeq : p = (p.1, ExitCause.cmdFail c) := by
    rw [← hc]
  refine ⟨c, hpeq, hlast, ?_, by omega, horc, fun i hi => ?_,
    ⟨m, hm, by rw [hprog', hprog]⟩⟩
  · rw [hruns, hidx]
    simp only [List.length_append, hlen, List.length_cons, List.length_nil]
  · rcases hsucc' i hi with h' | h'
    · exact hsucc i h'
    · exact h'

lemma mainM_cases (cfg : Config) (ch : Choices) (orc : Oracle) :
    (∃ s, mainM cfg ch orc = .ok s ∧ s.step = 11 ∧
        progressValues s.trace = List.range' 1 10 ∧
        headersOf s.trace = List.range' 1 10 ∧
        (runsOf s.trace).length = s.cmdIdx ∧
        (∀ i, i < s.cmdIdx → orc i = true) ∧
        getAppEnv (effectiveEnv cfg) ≠ "production")
    ∨ (∃ s' c, mainM cfg ch orc = .error (s', .cmdFail c) ∧
        s'.trace.getLast? = some (Event.run c) ∧
        (runsOf s'.trace).length = s'.cmdIdx ∧ 1 ≤ s'.cmdIdx ∧
        orc (s'.cmdIdx - 1) = false ∧
        (∀ i, i < s'.cmdIdx - 1 → orc i = true) ∧
        (∃ m, m ≤ 10 ∧ progressValues s'.trace = List.range' 1 m))
    ∨ (∃ s', mainM cfg ch orc = .error (s', .prodAbort) ∧
        progressValues s'.trace = List.range' 1 2 ∧
        headersOf s'.trace = [1, 2, 3] ∧
        Event.deleteStorage ∉ s'.trace ∧
        (∀ c ∈ runsOf s'.trace, c = composerInstallNoScripts ∨ c = keyGenerate) ∧
        getAppEnv (effectiveEnv cfg) = "production") := by
  have hmain : mainM cfg ch orc =
      step2 orc (step1 (initSt cfg)) >>= fun s =>
      step3 cfg orc s >>= fun s =>
      step4 orc s >>= fun s =>
      step6 orc (step5 s) >>= fun s =>
      step7 ch orc s >>= fun s =>
      step8 orc s >>= fun s =>
      step9 ch orc s >>= fun s =>
      step10 ch orc s >>= fun s =>
      pure s := rfl
  rw [hmain]
  clear hmain
  obtain ⟨h1s, h1i, h1p, h1h, h1r, h1d, h1e⟩ := step1_spec (initSt cfg)
  set s1 := step1 (initSt cfg) with hs1
  have h1s' : s1.step = 2 := h1s
  have h1i' : s1.cmdIdx = 0 := h1i
  have h1p' : progressValues s1.trace = [1] := h1p.trans rfl
  have h1h' : headersOf s1.trace = [1] := h1h.trans rfl
  have h1r' : runsOf s1.trace = [] := h1r.trans rfl
  have h1d' : Event.deleteStorage ∉ s1.trace := fun hm => List.not_mem_nil _ (h1d.mp hm)
  have h1e' : s1.envContent = cfg.envContent := h1e
  -- step 2
  rcases cmdStep_spec orc composerInstallNoScripts
      "Installing Composer dependencies (no-scripts)" s1 with
    ⟨ho2, s2, he2, h2s, h2i, h2p, h2h, h2r, h2d, h2e⟩ |
    ⟨ho2, s2, he2, h2i, h2l, h2p, h2h, h2r⟩
  · -- step 2 succeeded
    have he2' : step2 orc s1 = .ok s2 := he2
    rw [he2']
    simp only [ok_bind]
    have h2s' : s2.step = 3 := by rw [h2s, h1s']
    have h2i' : s2.cmdIdx = 1 := by rw [h2i, h1i']
    have h2p' : progressValues s2.trace = [1, 2] := by rw [h2p, h1p', h1s']; rfl
    have h2h' : headersOf s2.trace = [1, 2] := by rw [h2h, h1h', h1s']; rfl
    have h2r' : runsOf s2.trace = [composerInstallNoScripts] := by rw [h2r, h1r']; rfl
    have h2pR : progressValues s2.trace = List.range' 1 2 := h2p'.trans rfl
    have h2d' : Event.deleteStorage ∉ s2.trace := by rw [h2d]; exact h1d'
    have h2e' : s2.envContent = cfg.envContent := by rw [h2e, h1e']
    have hlen2 : (runsOf s2.trace).length = s2.cmdIdx := by rw [h2r', h2i']; rfl
    have hsucc2 : ∀ i, i < s2.cmdIdx → orc i = true := by
      intro i hi
      rw [h2i'] at hi
      have : i = 0 := by omega
      subst this
      rw [h1i'] at ho2
      exact ho2
    have henvEq : envAfter cfg s2 = effectiveEnv cfg := by
      unfold envAfter effectiveEnv
      rw [h2e']
    -- step 3
    rcases step3_spec cfg orc s2 with
      ⟨s3, he3, hok3, ⟨ρ3, hρ3, hruns3⟩, hdel3, hne3⟩ |
      ⟨p3, he3, hf3⟩ |
      ⟨p3, he3, hpr3, hprog3, hhdr3, ⟨ρ3, hρ3, hruns3⟩, hdel3, hprod3⟩
    · -- step 3 succeeded
      rw [he3]
      simp only [ok_bind]
      obtain ⟨h3s, h3p, h3h, hlen3, hsucc3⟩ :=
        stepOk_propagate hok3 h2s' h2p' h2h' hlen2 hsucc2
      have h3s' : s3.step = 4 := h3s
      have h3p' : progressValues s3.trace = [1, 2, 3] := h3p.trans rfl
      have h3pR : progressValues s3.trace = List.range' 1 3 := h3p.trans rfl
      have h3h' : headersOf s3.trace = [1, 2, 3] := h3h.trans rfl
      have hneP : getAppEnv (effectiveEnv cfg) ≠ "production" := by
        rw [← henvEq]
        exact hne3
      -- step 4
      rcases withStep_spec orc (runCommand orc composerInstall)
          "Re-running Composer install (with scripts)" s3
          (subOk_runCommand orc composerInstall _) with
        ⟨s4, he4, hok4⟩ | ⟨p4, he4, hf4⟩
      · have he4' : step4 orc s3 = .ok s4 := he4
        rw [he4']
        simp only [ok_bind]
        obtain ⟨h4s, h4p, h4h, hlen4, hsucc4⟩ :=
          stepOk_propagate hok4 h3s' h3p' h3h' hlen3 hsucc3
        have h4s' : s4.step = 5 := h4s
        have h4p' : progressValues s4.trace = [1, 2, 3, 4] := h4p.trans rfl
        have h4h' : headersOf s4.trace = [1, 2, 3, 4] := h4h.trans rfl
        -- step 5 (pure)
        obtain ⟨h5s, h5i, h5p, h5h, h5r, h5e⟩ := step5_spec s4
        set s5 := step5 s4 with hs5
        have h5s' : s5.step = 6 := by rw [h5s, h4s']
        have h5p' : progressValues s5.trace = [1, 2, 3, 4, 5] := by
          rw [h5p, h4p', h4s']; rfl
        have h5pR : progressValues s5.trace = List.range' 1 5 := h5p'.trans rfl
        have h5h' : headersOf s5.trace = [1, 2, 3, 4, 5] := by
          rw [h5h, h4h', h4s']; rfl
        have hlen5 : (runsOf s5.trace).length = s5.cmdIdx := by
          rw [h5r, h5i]
          exact hlen4
        have hsucc5 : ∀ i, i < s5.cmdIdx → orc i = true := by
          intro i hi
          rw [h5i] at hi
          exact hsucc4 i hi
        -- step 6
        rcases withStep_spec orc (runCommand orc storageLink)
            "Creating storage symlink" s5
            (subOk_runCommand orc storageLink _) with
          ⟨s6, he6, hok6⟩ | ⟨p6, he6, hf6⟩
        · have he6' : step6 orc s5 = .ok s6 := he6
          rw [he6']
          simp only [ok_bind]
          obtain ⟨h6s, h6p, h6h, hlen6, hsucc6⟩ :=
            stepOk_propagate hok6 h5s' h5p' h5h' hlen5 hsucc5
          have h6s' : s6.step = 7 := h6s
          have h6p' : progressValues s6.trace = [1, 2, 3, 4, 5, 6] := h6p.trans rfl
          have h6pR : progressValues s6.trace = List.range' 1 6 := h6p.trans rfl
          have h6h' : headersOf s6.trace = [1, 2, 3, 4, 5, 6] := h6h.trans rfl
          -- step 7
          rcases withStep_spec orc (migrationSub ch orc) "Database migration" s6
              (subOk_migrationSub ch orc _) with
            ⟨s7, he7, hok7⟩ | ⟨p7, he7, hf7⟩
          · have he7' : step7 ch orc s6 = .ok s7 := he7
            rw [he7']
            simp only [ok_bind]
            obtain ⟨h7s, h7p, h7h, hlen7, hsucc7⟩ :=
              stepOk_propagate hok7 h6s' h6p' h6h' hlen6 hsucc6
            have h7s' : s7.step = 8 := h7s
            have h7p' : progressValues s7.trace = [1, 2, 3, 4, 5, 6, 7] := h7p.trans rfl
            have h7pR : progressValues s7.trace = List.range' 1 7 := h7p.trans rfl
            have h7h' : headersOf s7.trace = [1, 2, 3, 4, 5, 6, 7] := h7h.trans rfl
            -- step 8
            rcases withStep_spec orc (runCommand orc iconCache) "Caching icons" s7
                (subOk_runCommand orc iconCache _) with
              ⟨s8, he8, hok8⟩ | ⟨p8, he8, hf8⟩
            · have he8' : step8 orc s7 = .ok s8 := he8
              rw [he8']
              simp only [ok_bind]
              obtain ⟨h8s, h8p, h8h, hlen8, hsucc8⟩ :=
                stepOk_propagate hok8 h7s' h7p' h7h' hlen7 hsucc7
              have h8s' : s8.step = 9 := h8s
              have h8p' : progressValues s8.trace = [1, 2, 3, 4, 5, 6, 7, 8] := h8p.trans rfl
              have h8pR : progressValues s8.trace = List.range' 1 8 := h8p.trans rfl
              have h8h' : headersOf s8.trace = [1, 2, 3, 4, 5, 6, 7, 8] := h8h.trans rfl
              -- step 9
              rcases withStep_spec orc (buildSub ch orc) "Frontend asset build" s8
                  (subOk_buildSub ch orc _) with
                ⟨s9, he9, hok9⟩ | ⟨p9, he9, hf9⟩
              · have he9' : step9 ch orc s8 = .ok s9 := he9
                rw [he9']
                simp only [ok_bind]
                obtain ⟨h9s, h9p, h9h, hlen9, hsucc9⟩ :=
                  stepOk_propagate hok9 h8s' h8p' h8h' hlen8 hsucc8
                have h9s' : s9.step = 10 := h9s
                have h9p' : progressValues s9.trace = [1, 2, 3, 4, 5, 6, 7, 8, 9] :=
                  h9p.trans rfl
                have h9pR : progressValues s9.trace = List.range' 1 9 := h9p.trans rfl
                have h9h' : headersOf s9.trace = [1, 2, 3, 4, 5, 6, 7, 8, 9] :=
                  h9h.trans rfl
                -- step 10
                rcases withStep_spec orc (prodSub ch orc) "Production optimizations" s9
                    (subOk_prodSub ch orc _) with
                  ⟨s10, he10, hok10⟩ | ⟨p10, he10, hf10⟩
                · have he10' : step10 ch orc s9 = .ok s10 := he10
                  rw [he10']
                  simp only [ok_bind]
                  obtain ⟨h10s, h10p, h10h, hlen10, hsucc10⟩ :=
                    stepOk_propagate hok10 h9s' h9p' h9h' hlen9 hsucc9
                  left
                  refine ⟨s10, rfl, h10s, ?_, ?_, hlen10, hsucc10, hneP⟩
                  · rw [h10p]; rfl
                  · rw [h10h]; rfl
                · have he10' : step10 ch orc s9 = .error p10 := he10
                  rw [he10']
                  simp only [err_bind]
                  right; left
                  obtain ⟨c, hpeq, hl, hlen', hge, ho, hsc, hm'⟩ :=
                    stepFail_conclude hf10 hlen9 hsucc9 h9pR (by omega)
                  exact ⟨p10.1, c, congrArg Except.error hpeq, hl, hlen', hge, ho, hsc, hm'⟩
              · have he9' : step9 ch orc s8 = .error p9 := he9
                rw [he9']
                simp only [err_bind]
                right; left
                obtain ⟨c, hpeq, hl, hlen', hge, ho, hsc, hm'⟩ :=
                  stepFail_conclude hf9 hlen8 hsucc8 h8pR (by omega)
                exact ⟨p9.1, c, congrArg Except.error hpeq, hl, hlen', hge, ho, hsc, hm'⟩
            · have he8' : step8 orc s7 = .error p8 := he8
              rw [he8']
              simp only [err_bind]
              right; left
              obtain ⟨c, hpeq, hl, hlen', hge, ho, hsc, hm'⟩ :=
                stepFail_conclude hf8 hlen7 hsucc7 h7pR (by omega)
              exact ⟨p8.1, c, congrArg Except.error hpeq, hl, hlen', hge, ho, hsc, hm'⟩
          · have he7' : step7 ch orc s6 = .error p7 := he7
            rw [he7']
            simp only [err_bind]
            right; left
            obtain ⟨c, hpeq, hl, hlen', hge, ho, hsc, hm'⟩ :=
              stepFail_conclude hf7 hlen6 hsucc6 h6pR (by omega)
            exact ⟨p7.1, c, congrArg Except.error hpeq, hl, hlen', hge, ho, hsc, hm'⟩
        · have he6' : step6 orc s5 = .error p6 := he6
          rw [he6']
          simp only [err_bind]
          right; left
          obtain ⟨c, hpeq, hl, hlen', hge, ho, hsc, hm'⟩ :=
            stepFail_conclude hf6 hlen5 hsucc5 h5pR (by omega)
          exact ⟨p6.1, c, congrArg Except.error hpeq, hl, hlen', hge, ho, hsc, hm'⟩
      · have he4' : step4 orc s3 = .error p4 := he4
        rw [he4']
        simp only [err_bind]
        right; left
        obtain ⟨c, hpeq, hl, hlen', hge, ho, hsc, hm'⟩ :=
          stepFail_conclude hf4 hlen3 hsucc3 h3pR (by omega)
        exact ⟨p4.1, c, congrArg Except.error hpeq, hl, hlen', hge, ho, hsc, hm'⟩
    · -- step 3 failed on a command
      rw [he3]
      simp only [err_bind]
      right; left
      obtain ⟨c, hpeq, hl, hlen', hge, ho, hsc, hm'⟩ :=
        stepFail_conclude hf3 hlen2 hsucc2 h2pR (by omega)
      exact ⟨p3.1, c, congrArg Except.error hpeq, hl, hlen', hge, ho, hsc, hm'⟩
    · -- step 3 aborted on the production check
      rw [he3]
      simp only [err_bind]
      right; right
      have hpeq : p3 = (p3.1, ExitCause.prodAbort) := by
        rw [← hpr3]
      refine ⟨p3.1, congrArg Except.error hpeq, ?_, ?_, ?_, ?_, ?_⟩
      · rw [hprog3, h2p']; rfl
      · rw [hhdr3, h2h', h2s']; rfl
      · rw [hdel3]
        exact h2d'
      · intro c hc
        rw [hruns3, h2r'] at hc
        rcases hρ3 with hρ3 | hρ3 <;> subst hρ3 <;> simp at hc
        · exact .inl hc
        · rcases hc with hc | hc
          · exact .inl hc
          · exact .inr hc
      · rw [← henvEq]
        exact hprod3
  · -- step 2 failed
    have he2' : step2 orc s1 = .error (s2, .cmdFail composerInstallNoScripts) := he2
    rw [he2']
    simp only [err_bind]
    right; left
    refine ⟨s2, composerInstallNoScripts, rfl, h2l, ?_, ?_, ?_, ?_, ⟨1, by omega, ?_⟩⟩
    · rw [h2r, h1r', h2i, h1i']; rfl
    · omega
    · have hx : s2.cmdIdx - 1 = s1.cmdIdx := by omega
      rw [hx]
      exact ho2
    · intro i hi
      have hz : s2.cmdIdx - 1 = 0 := by omega
      rw [hz] at hi
      exact absurd hi (by omega)
    · rw [h2p, h1p']; rfl

/-- Claim C2 (confirmed): whenever a run ends because an external command
failed (non-zero exit or spawn failure), the process exit status is
non-zero (1), the event trace ends exactly at the failing command's
invocation — so no later step, sub-step, or report executes — and every
oracle index consumed before the failing one reported success while the
failing one reported failure: the failed command was invoked exactly once,
with no retry. -/
theorem fail_fast_terminates (cfg : Config) (ch : Choices) (orc : Oracle) (c : Cmd)
    (h : (runMain cfg ch orc).2 = .cmdFail c) :
    exitCode (runMain cfg ch orc).2 = 1 ∧
    (runMain cfg ch orc).1.getLast? = some (Event.run c) ∧
    1 ≤ (runsOf (runMain cfg ch orc).1).length ∧
    orc ((runsOf (runMain cfg ch orc).1).length - 1) = false ∧
    (∀ i, i < (runsOf (runMain cfg ch orc).1).length - 1 → orc i = true) := by
  rcases mainM_cases cfg ch orc with
    ⟨s, he, _⟩ | ⟨s', c', he, hl, hlen, hge, ho, hsc, _⟩ | ⟨s', he, _⟩
  · have hrm : runMain cfg ch orc = (s.trace, .success) := by
      unfold runMain
      rw [he]
    rw [hrm] at h
    simp at h
  · have hrm : runMain cfg ch orc = (s'.trace, .cmdFail c') := by
      unfold runMain
      rw [he]
    rw [hrm] at h
    have hcc : c' = c := by simpa using h
    subst hcc
    rw [hrm]
    refine ⟨rfl, hl, ?_, ?_, ?_⟩
    · show 1 ≤ (runsOf s'.trace).length
      omega
    · show orc ((runsOf s'.trace).length - 1) = false
      rw [hlen]
      exact ho
    · intro i hi
      have hi' : i < (runsOf s'.trace).length - 1 := hi
      rw [hlen] at hi'
      exact hsc i hi'
  · have hrm : runMain cfg ch orc = (s'.trace, .prodAbort) := by
      unfold runMain
      rw [he]
    rw [hrm] at h
    simp at h

/-- Witness for `fail_fast_terminates`: under the always-failing oracle the
very first command fails and the run stops there. -/
theorem fail_fast_terminates_witness :
    (runMain lockedCfg skipChoices (fun _ => false)).2 = .cmdFail composerInstallNoScripts ∧
    (exitCode (runMain lockedCfg skipChoices (fun _ => false)).2 = 1 ∧
     (runMain lockedCfg skipChoices (fun _ => false)).1.getLast?
       = some (Event.run composerInstallNoScripts) ∧
     1 ≤ (runsOf (runMain lockedCfg skipChoices (fun _ => false)).1).length ∧
     (fun _ => false : Oracle)
       ((runsOf (runMain lockedCfg skipChoices (fun _ => false)).1).length - 1) = false ∧
     (∀ i, i < (runsOf (runMain lockedCfg skipChoices (fun _ => false)).1).length - 1 →
       (fun _ => false : Oracle) i = true)) :=
  ⟨by decide, fail_fast_terminates lockedCfg skipChoices (fun _ => false)
    composerInstallNoScripts (by decide)⟩

/-- Claim C7 (confirmed): in every run the sequence of reported progress
values is exactly 1, 2, ..., m for the number m of completed steps
(`List.range' 1 m`): one report after each completed or skipped step,
strictly increasing from 1, never decreasing, never skipping a value; a
fully successful run reports 1..10, one value per step block that performs
a `progressBar.update` (the `Step 11: Complete` block performs none). -/
theorem progress_monotone (cfg : Config) (ch : Choices) (orc : Oracle) :
    ∃ m, m ≤ 10 ∧ progressValues (runMain cfg ch orc).1 = List.range' 1 m ∧
      ((runMain cfg ch orc).2 = .success →
        m = 10 ∧ headersOf (runMain cfg ch orc).1 = List.range' 1 10) := by
  rcases mainM_cases cfg ch orc with
    ⟨s, he, hstep, hp, hh, _⟩ | ⟨s', c', he, hl, hlen, hge, ho, hsc, m, hm, hpm⟩ |
    ⟨s', he, hp, hh, _⟩
  · have hrm : runMain cfg ch orc = (s.trace, .success) := by
      unfold runMain
      rw [he]
    rw [hrm]
    exact ⟨10, by omega, hp, fun _ => ⟨rfl, hh⟩⟩
  · have hrm : runMain cfg ch orc = (s'.trace, .cmdFail c') := by
      unfold runMain
      rw [he]
    rw [hrm]
    refine ⟨m, hm, hpm, fun hcon => ?_⟩
    simp at hcon
  · have hrm : runMain cfg ch orc = (s'.trace, .prodAbort) := by
      unfold runMain
      rw [he]
    rw [hrm]
    refine ⟨2, by omega, hp, fun hcon => ?_⟩
    simp at hcon

/-- Witness for `progress_monotone` at a concrete full run. -/
theorem progress_monotone_witness :
    ∃ m, m ≤ 10 ∧
      progressValues (runMain lockedCfg skipChoices allOk).1 = List.range' 1 m ∧
      ((runMain lockedCfg skipChoices allOk).2 = .success →
        m = 10 ∧ headersOf (runMain lockedCfg skipChoices allOk).1 = List.range' 1 10) :=
  progress_monotone lockedCfg skipChoices allOk

/-- Claim C3 (corrected): when every step succeeds or is skipped, the
process exit status is 0, but the final reported progress value is 10 —
`totalSteps - 1`, not the total step count 11: `main()` calls
`progressBar.update` after steps 1..10 only and the `Step 11: Complete`
block stops the bar without a final update. -/
theorem success_exit_and_final_progress (cfg : Config) (ch : Choices) (orc : Oracle)
    (h : (runMain cfg ch orc).2 = .success) :
    exitCode (runMain cfg ch orc).2 = 0 ∧
    (progressValues (runMain cfg ch orc).1).getLast? = some 10 ∧
    (progressValues (runMain cfg ch orc).1).length = totalSteps - 1 := by
  rcases mainM_cases cfg ch orc with
    ⟨s, he, hstep, hp, hh, _⟩ | ⟨s', c', he, _⟩ | ⟨s', he, _⟩
  · have hrm : runMain cfg ch orc = (s.trace, .success) := by
      unfold runMain
      rw [he]
    rw [hrm]
    refine ⟨rfl, ?_, ?_⟩
    · show (progressValues s.trace).getLast? = some 10
      rw [hp]
      decide
    · show (progressValues s.trace).length = totalSteps - 1
      rw [hp]
      decide
  · have hrm : runMain cfg ch orc = (s'.trace, .cmdFail c') := by
      unfold runMain
      rw [he]
    rw [hrm] at h
    simp at h
  · have hrm : runMain cfg ch orc = (s'.trace, .prodAbort) := by
      unfold runMain
      rw [he]
    rw [hrm] at h
    simp at h

/-- Witness for `success_exit_and_final_progress` at a concrete full run. -/
theorem success_exit_and_final_progress_witness :
    (runMain lockedCfg skipChoices allOk).2 = .success ∧
    (exitCode (runMain lockedCfg skipChoices allOk).2 = 0 ∧
     (progressValues (runMain lockedCfg skipChoices allOk).1).getLast? = some 10 ∧
     (progressValues (runMain lockedCfg skipChoices allOk).1).length = totalSteps - 1) :=
  ⟨by decide, success_exit_and_final_progress lockedCfg skipChoices allOk (by decide)⟩

/-- Claim C1 (corrected, amended): when the environment setting in force at
the check (`.env` if pre-existing, else the copied template) is
`production` and the commands before the check succeed, the run does abort
with a non-zero exit status — but the check happens inside step 3, not
before every mutating step: at abort time the headers printed are exactly
1, 2, 3, the commands already invoked are among the first dependency
installation and the key generation, and no `public/storage` deletion has
happened.  Steps 4-10 (second composer install, storage deletion, storage
link, migration, icon caching, frontend build, production optimizations)
never run. -/
theorem prod_abort_after_env_step (cfg : Config) (ch : Choices) (orc : Oracle)
    (hprod : getAppEnv (effectiveEnv cfg) = "production")
    (hok : ∀ i, orc i = true) :
    (runMain cfg ch orc).2 = .prodAbort ∧
    exitCode (runMain cfg ch orc).2 = 1 ∧
    headersOf (runMain cfg ch orc).1 = [1, 2, 3] ∧
    Event.deleteStorage ∉ (runMain cfg ch orc).1 ∧
    (∀ c ∈ runsOf (runMain cfg ch orc).1,
      c = composerInstallNoScripts ∨ c = keyGenerate) := by
  rcases mainM_cases cfg ch orc with
    ⟨s, he, hstep, hp, hh, hlen, hsucc, hne⟩ |
    ⟨s', c', he, hl, hlen, hge, ho, hsc, _⟩ |
    ⟨s', he, hp, hh, hd, hr, _⟩
  · exact absurd hprod hne
  · have hx := hok (s'.cmdIdx - 1)
    rw [hx] at ho
    simp at ho
  · have hrm : runMain cfg ch orc = (s'.trace, .prodAbort) := by
      unfold runMain
      rw [he]
    rw [hrm]
    exact ⟨rfl, rfl, hh, hd, hr⟩

/-- Witness for `prod_abort_after_env_step` at a concrete production
configuration. -/
theorem prod_abort_after_env_step_witness :
    getAppEnv (effectiveEnv prodCfg) = "production" ∧ (∀ i, allOk i = true) ∧
    ((runMain prodCfg skipChoices allOk).2 = .prodAbort ∧
     exitCode (runMain prodCfg skipChoices allOk).2 = 1 ∧
     headersOf (runMain prodCfg skipChoices allOk).1 = [1, 2, 3] ∧
     Event.deleteStorage ∉ (runMain prodCfg skipChoices allOk).1 ∧
     (∀ c ∈ runsOf (runMain prodCfg skipChoices allOk).1,
       c = composerInstallNoScripts ∨ c = keyGenerate)) :=
  ⟨by decide, fun _ => rfl,
    prod_abort_after_env_step prodCfg skipChoices allOk (by decide) (fun _ => rfl)⟩

end Vvecon
